import Mathlib

/-!
Shallow embedding of the dope-scope Owon VDS1022 driver
(`src/driver/owon.ts` and the sample decoder in
`src/components/HelloWorld.vue`).

Bytes are modelled as natural numbers; every byte produced by the
embedding is reduced modulo 256 exactly where the JavaScript typed-array
machinery truncates.  Device I/O is modelled as a trace of `Step`s
(host-to-device writes, expected-affirmative response reads, and bulk
data reads).  Sample values are modelled as exact rationals in place of
JavaScript floating point.
-/

namespace DopeScope

/-- Little-endian 32-bit serialization, as `DataView.setUint32(_, _, true)`. -/
def u32le (n : Nat) : List Nat :=
  [n % 256, n / 256 % 256, n / 65536 % 256, n / 16777216 % 256]

/-- Little-endian 16-bit serialization, as `DataView.setUint16(_, _, true)`. -/
def u16le (n : Nat) : List Nat :=
  [n % 256, n / 256 % 256]

/-- Little-endian 16-bit serialization of a possibly negative value:
JavaScript `setUint16` coerces via ToUint16, i.e. modulo 2^16. -/
def u16leInt (v : Int) : List Nat :=
  u16le (v % 65536).toNat

/-- `packCommand(address, data)` from `owon.ts`: a 5-byte header
(address as u32 LE, then `data.byteLength` as a single byte — which
`DataView.setUint8` truncates modulo 256) followed by the payload.
The source performs no length validation. -/
def packCommand (address : Nat) (data : List Nat) : List Nat :=
  u32le address ++ data.length % 256 :: data

/-- One element of the host-to-device interaction trace. -/
inductive Step where
  | out (bytes : List Nat)
  | expectAck
  | readIn (len : Nat)
deriving DecidableEq

/- Register addresses from the `Address` enum in `owon.ts`. -/
namespace Address

def CH1 : Nat := 0x111

def CH2 : Nat := 0x110

def CH1_VOLT_GAIN : Nat := 0x116

def CH2_VOLT_GAIN : Nat := 0x114

def CH1_ZERO_OFFSET : Nat := 0x10a

def CH2_ZERO_OFFSET : Nat := 0x108

def TRIGGER : Nat := 0x24

def TRIGGER_D : Nat := 0x1

def CH1_TRIGGER_HOLDOFF_ARG : Nat := 0x26

def CH1_TRIGGER_HOLDOFF_INDEX : Nat := 0x27

def CH1_TRIGGER_EDGE_LEVEL : Nat := 0x2e

def CH2_TRIGGER_EDGE_LEVEL : Nat := 0x30

def EXT_TRIGGER_EDGE_LEVEL : Nat := 0x10c

def PRE_TRIGGER : Nat := 0x5a

def SUF_TRIGGER : Nat := 0x56

def DEEP_MEMORY : Nat := 0x5c

def CHANNEL_ON : Nat := 0xb

def SYNC_OUTPUT : Nat := 0x6

def SAMPLE : Nat := 0x9

def EMPTY : Nat := 0x10c

def DATA_FINISHED : Nat := 0x7a

def GET_DATA : Nat := 0x1000

def FPGA_UPLOAD : Nat := 0x4000

end Address

def AFFIRMATIVE_RESPONSE : Nat := 0x53

def CALIBRATION_INFO_COUNT : Nat := 3

def CHANNEL_COUNT : Nat := 2

def VOLTBASE_COUNT : Nat := 10

/-- The `Voltage` enum (values 0–9). -/
inductive Voltage where
  | MV5 | MV10 | MV20 | MV50 | MV100 | MV200 | MV500 | V1 | V2 | V5
deriving DecidableEq

def Voltage.val : Voltage → Nat
  | .MV5 => 0 | .MV10 => 1 | .MV20 => 2 | .MV50 => 3 | .MV100 => 4
  | .MV200 => 5 | .MV500 => 6 | .V1 => 7 | .V2 => 8 | .V5 => 9

/-- The `Coupling` enum. -/
inductive Coupling where
  | AC | DC | GND
deriving DecidableEq

def Coupling.val : Coupling → Nat
  | .AC => 0 | .DC => 1 | .GND => 2

/-- The `Channel` enum. -/
inductive Channel where
  | CH1 | CH2
deriving DecidableEq

def Channel.val : Channel → Nat
  | .CH1 => 0 | .CH2 => 1

/-- The `TriggerSource` enum. -/
inductive TriggerSource where
  | CH1 | CH2 | EXTERNAL
deriving DecidableEq

def TriggerSource.val : TriggerSource → Nat
  | .CH1 => 0 | .CH2 => 1 | .EXTERNAL => 2

/-- The `TriggerType` enum. -/
inductive TriggerType where
  | EDGE | SLOPE | VIDEO | PULSE
deriving DecidableEq

def TriggerType.val : TriggerType → Nat
  | .EDGE => 0 | .SLOPE => 1 | .VIDEO => 2 | .PULSE => 3

/-- The `TriggerMode` enum. -/
inductive TriggerMode where
  | SINGLE | ALTERNATE
deriving DecidableEq

def TriggerMode.val : TriggerMode → Nat
  | .SINGLE => 0 | .ALTERNATE => 1

/-- The `TriggerSlope` enum. -/
inductive TriggerSlope where
  | RISING | FALLING
deriving DecidableEq

def TriggerSlope.val : TriggerSlope → Nat
  | .RISING => 0 | .FALLING => 1

/-- `ChannelOptions` from `owon.ts`. -/
structure ChannelOptions where
  channel : Channel
  «on» : Bool
  voltage : Voltage
  coupling : Coupling

/-- `EdgeTriggerOptions` from `owon.ts`.  `holdoffSeconds` and
`triggerLevel` are JavaScript numbers; `triggerLevel` is only ever used
integrally, so it is modelled as `Int`. -/
structure EdgeTriggerOptions where
  source : TriggerSource
  mode : TriggerMode
  type : TriggerType
  slope : TriggerSlope
  holdoffSeconds : Int
  triggerLevel : Int

/-- `TriggerOptions` from `owon.ts` (note the source really does declare
`type : TriggerMode` and `mode : TriggerType`, swapped relative to the
names). -/
structure TriggerOptions where
  source : TriggerSource
  type : TriggerMode
  mode : TriggerType

/-- The mutable state the `Owon` class instance carries: the calibration
ndarray (indexed channel, field, voltage-range as in the source), the
firmware-version string and the serial string (as byte lists). -/
structure SessionState where
  calibration : Nat → Nat → Nat → Nat
  firmwareVersion : List Nat
  serial : List Nat

/-- The state established by the `Owon` constructor: the calibration
ndarray is backed by `new Uint16Array(60)`, which is zero-filled, and
the two strings are empty. -/
def initialSession : SessionState :=
  { calibration := fun _ _ _ => 0, firmwareVersion := [], serial := [] }

/- Address lookup tables from `owon.ts`. -/

def CHANNEL_ADDRESS : Channel → Nat
  | .CH1 => Address.CH1
  | .CH2 => Address.CH2

def VOLT_GAIN_ADDRESS : Channel → Nat
  | .CH1 => Address.CH1_VOLT_GAIN
  | .CH2 => Address.CH2_VOLT_GAIN

def ZERO_OFFSET_ADDRESS : Channel → Nat
  | .CH1 => Address.CH1_ZERO_OFFSET
  | .CH2 => Address.CH2_ZERO_OFFSET

def TRIGGER_EDGE_LEVEL_ADDRESS : TriggerSource → Nat
  | .CH1 => Address.CH1_TRIGGER_EDGE_LEVEL
  | .CH2 => Address.CH2_TRIGGER_EDGE_LEVEL
  | .EXTERNAL => Address.EXT_TRIGGER_EDGE_LEVEL

/-- `CalibrationField` enum: GAIN = 0, AMPLITUDE = 1, COMPENSATION = 2. -/
def CalibrationField.GAIN : Nat := 0

def CalibrationField.AMPLITUDE : Nat := 1

def CalibrationField.COMPENSATION : Nat := 2

/-- The three register writes performed by `configureChannel`
(owon.ts lines 420–478).  The source performs no check that the
calibration table has been populated: it reads the gain, compensation
and amplitude values straight out of `calibrationData_`.  The zero
offset is `compensation - Math.floor(amplitude / 100)`, serialized by
`setUint16` (i.e. modulo 2^16). -/
def configureChannelWrites (s : SessionState) (o : ChannelOptions) : List (List Nat) :=
  let channelBitField := (if o.«on» then 0x80 else 0) ||| (o.coupling.val <<< 5) ||| 0x2
  let voltGain := s.calibration o.channel.val CalibrationField.GAIN o.voltage.val
  let compensation := s.calibration o.channel.val CalibrationField.COMPENSATION o.voltage.val
  let amplitude := s.calibration o.channel.val CalibrationField.AMPLITUDE o.voltage.val
  let zeroOffset : Int := (compensation : Int) - (amplitude / 100 : Nat)
  [packCommand (CHANNEL_ADDRESS o.channel) [channelBitField % 256],
   packCommand (VOLT_GAIN_ADDRESS o.channel) (u16le voltGain),
   packCommand (ZERO_OFFSET_ADDRESS o.channel) (u16leInt zeroOffset)]

/-- `configureTrigger` (owon.ts lines 492–498): it computes a local
`triggerBitField` and then returns without touching the transport or
the session state. -/
def configureTrigger (s : SessionState) (o : TriggerOptions) : SessionState × List Step :=
  let triggerBitField := 0 ||| (o.type.val <<< 8)
  (s, [])

/-- JavaScript ToInt8 coercion, applied by `Int8Array.from`. -/
def toInt8 (v : Int) : Int :=
  (v + 128) % 256 - 128

/-- The byte actually stored for a signed value (in twos-complement form). -/
def int8Byte (v : Int) : Nat :=
  (v % 256).toNat

/-- The clamped `(upperBound, lowerBound)` pair computed by
`configureEdgeTrigger` (owon.ts lines 500–519).  Note the source clamps
with `if (upperBound > 128) { upperBound = 128; ... }`. -/
def edgeLevelBounds (o : EdgeTriggerOptions) : Int × Int :=
  let upperBound :=
    if o.slope = .RISING then o.triggerLevel else o.triggerLevel + 10
  let lowerBound :=
    if o.slope = .RISING then o.triggerLevel - 10 else o.triggerLevel
  let clamped1 :=
    if upperBound > 128 then ((128 : Int), (128 : Int) - 10)
    else (upperBound, lowerBound)
  if clamped1.2 < -128 then (((-128 : Int) + 10), (-128 : Int))
  else clamped1

/-- The edge-level register write: the two bounds are stored through an
`Int8Array` (ToInt8 wrapping) and copied as raw bytes into the command
frame. -/
def edgeLevelWrite (o : EdgeTriggerOptions) : List Nat :=
  packCommand (TRIGGER_EDGE_LEVEL_ADDRESS o.source)
    [int8Byte (toInt8 (edgeLevelBounds o).1), int8Byte (toInt8 (edgeLevelBounds o).2)]

/-- The 16-bit trigger-type word built by `configureEdgeTrigger`
(owon.ts lines 529–552), with the sequential `|=` steps reproduced as
`let` bindings and the `sweep` constant fixed at 0 as in the source. -/
def triggerTypeBitField (o : EdgeTriggerOptions) : Nat :=
  let b0 : Nat := 0
  let b1 :=
    if o.mode = .SINGLE then
      let s1 := b0 ||| ((o.type.val &&& 0x1) <<< 8)
      let s2 := s1 ||| (((o.type.val >>> 1) &&& 0x1) <<< 14)
      if o.source = .EXTERNAL then s2 ||| 0x1
      else s2 ||| ((o.source.val &&& 0x1) <<< 13)
    else
      let a1 := b0 ||| (1 <<< 15)
      let a2 := a1 ||| ((o.type.val &&& 0x1) <<< 13)
      let a3 := a2 ||| (((o.type.val >>> 1) &&& 0x1) <<< 8)
      a3 ||| ((o.source.val &&& 0x1) <<< 14)
  let sweep : Nat := 0
  let b2 := b1 ||| ((o.slope.val &&& 0x1) <<< 12)
  if o.mode = .SINGLE then
    b2 ||| ((sweep &&& 0x1) <<< 10) ||| (((sweep >>> 1) &&& 0x1) <<< 11)
  else b2

/-- The trigger-type register write: the word is serialized 16-bit
little-endian to `Address.TRIGGER`. -/
def triggerTypeWrite (o : EdgeTriggerOptions) : List Nat :=
  packCommand Address.TRIGGER (u16le (triggerTypeBitField o))

/-- One cycle of the `sampleInfinitely` loop body (owon.ts lines
631–649): trigger-done reset with response check, data-finished reset
with response check, then the data request `packCommand(4096,
Uint8Array.from([0x05, 0x04]))` with no `expectResponse` call, then a
5211-byte bulk read. -/
def cycleSteps : List Step :=
  [.out (packCommand Address.TRIGGER_D [0x00]), .expectAck,
   .out (packCommand Address.DATA_FINISHED [0x00]), .expectAck,
   .out (packCommand 4096 [0x05, 0x04]),
   .readIn 5211]

/-- The one-time arm sequence at the top of `sampleInfinitely`
(owon.ts lines 581–626); each write is followed by
`expectResponse(AFFIRMATIVE_RESPONSE)`. -/
def armSteps : List Step :=
  [.out (packCommand Address.CH1_TRIGGER_HOLDOFF_ARG [0x00]), .expectAck,
   .out (packCommand Address.CH1_TRIGGER_HOLDOFF_INDEX [0x42]), .expectAck,
   .out (packCommand Address.DEEP_MEMORY [0xec, 0x13]), .expectAck,
   .out (packCommand Address.SYNC_OUTPUT [0x00]), .expectAck,
   .out (packCommand Address.SAMPLE [0x00]), .expectAck,
   .out (packCommand Address.PRE_TRIGGER [0xf1, 0x09]), .expectAck,
   .out (packCommand Address.SUF_TRIGGER [0xfb, 0x09, 0x00, 0x00]), .expectAck,
   .out (packCommand Address.EMPTY [0x01]), .expectAck]

/-- The trace of `n` loop iterations (the source runs
`for (let i = 0; i < 5000; i++)`, appending one `cycleSteps` block per
iteration). -/
def loopSteps : Nat → List Step
  | 0 => []
  | n + 1 => loopSteps n ++ cycleSteps

/-- The full `sampleInfinitely` trace.  The signature of the source
function is `sampleInfinitely(gotData)`: it takes only the sample
callback — no cycle bound and no stop predicate — and the loop count
5000 is a literal in the source. -/
def sampleInfinitelySteps : List Step :=
  armSteps ++ loopSteps 5000

/-- Recognizes the bulk sample-frame read step. -/
def isDataRead : Step → Bool
  | .readIn _ => true
  | _ => false

/-- Number of sample-frame reads (= completed acquisition cycles) in a
trace. -/
def countDataReads (l : List Step) : Nat :=
  (l.filter isDataRead).length

/- ## Firmware upload (`uploadFpgaBitstream`, owon.ts lines 361–411) -/

/-- The frame partition computed by the upload loop
`for (let i = 0, mcuFrameIndex = 0; i < len; i += mcuDataSize,
mcuFrameIndex++)`: each frame carries
`min(mcuDataSize, len - i)` data bytes.  The recursion is driven by a
fuel argument (the image length bounds the iteration count whenever
`mcuDataSize > 0`, which holds in the theorems below). -/
def chunkFramesAux : Nat → Nat → Nat → List Nat → List (Nat × List Nat)
  | 0, _, _, _ => []
  | fuel + 1, mcuDataSize, mcuFrameIndex, rest =>
    if rest = [] then []
    else (mcuFrameIndex, rest.take mcuDataSize) ::
      chunkFramesAux fuel mcuDataSize (mcuFrameIndex + 1) (rest.drop mcuDataSize)

/-- The list of `(frameIndex, frameData)` pairs the upload sends, in
order. -/
def uploadFrames (mcuDataSize : Nat) (fpgaFirmware : List Nat) : List (Nat × List Nat) :=
  chunkFramesAux fpgaFirmware.length mcuDataSize 0 fpgaFirmware

/-- The bytes of one upload frame: `setUint32(0, mcuFrameIndex, true)`
followed by the slice of the image carried by the frame. -/
def frameBytes (f : Nat × List Nat) : List Nat :=
  u32le f.1 ++ f.2

/-- The acknowledgement-gated transmission: after each frame is sent,
one response is read (`expectResponse(AFFIRMATIVE_RESPONSE)`); a
non-affirmative byte throws, so later frames are never sent.  The
result is the list of frames actually transmitted together with
`some rejectedIndex` when the upload aborted. -/
def uploadAckRun : List (Nat × List Nat) → (Nat → Nat) → List (Nat × List Nat) × Option Nat
  | [], _ => ([], none)
  | f :: rest, responses =>
    if responses f.1 = AFFIRMATIVE_RESPONSE then
      let r := uploadAckRun rest responses
      (f :: r.1, r.2)
    else ([f], some f.1)

/- ## Flash parsing (`readFlash`, owon.ts lines 262–323) -/

def FLASH_HEADER : Nat := 0xaa55

/-- `DataView.getUint16(i)` (big-endian, the source passes no
little-endian flag for the header). -/
def getU16be (buf : List Nat) (i : Nat) : Option Nat :=
  match buf.get? i, buf.get? (i + 1) with
  | some a, some b => some (a * 256 + b)
  | _, _ => none

/-- `DataView.getUint16(i, true)` (little-endian). -/
def getU16le (buf : List Nat) (i : Nat) : Option Nat :=
  match buf.get? i, buf.get? (i + 1) with
  | some a, some b => some (a + b * 256)
  | _, _ => none

/-- `DataView.getUint32(i, true)` (little-endian). -/
def getU32le (buf : List Nat) (i : Nat) : Option Nat :=
  match buf.get? i, buf.get? (i + 1), buf.get? (i + 2), buf.get? (i + 3) with
  | some a, some b, some c, some d =>
    some (a + b * 256 + c * 65536 + d * 16777216)
  | _, _, _, _ => none

inductive FlashError where
  | invalidFlashHeader
  | unsupportedFlashVersion
  | truncated
deriving DecidableEq

structure FlashData where
  calibration : Nat → Nat → Nat → Nat
  firmwareVersion : List Nat
  serial : List Nat

/-- The triple calibration loop of `readFlash`: `calibrationInfoIndex`
outermost (3), then `channelIndex` (2), then `voltbaseIndex` (10,
innermost); `bufferOffset` starts at 6 and advances by 2 per value, and
each value is stored at ndarray index
`(channelIndex, calibrationInfoIndex, voltbaseIndex)`.  The state is
the table-so-far, the current offset, and a flag recording whether
every `getUint16(bufferOffset, true)` so far was in range: the source
has no try/catch, so an out-of-range read throws RangeError and the
whole parse aborts with no table — the exception discards all partial
state, so yielding the table only when the flag is true is
observationally the same as throwing at the first bad read. -/
def calibLoop (buf : List Nat) : (Nat → Nat → Nat → Nat) × Nat × Bool :=
  (List.range CALIBRATION_INFO_COUNT).foldl
    (fun st calibrationInfoIndex =>
      (List.range CHANNEL_COUNT).foldl
        (fun st channelIndex =>
          (List.range VOLTBASE_COUNT).foldl
            (fun st voltbaseIndex =>
              (fun c f r =>
                  if c = channelIndex ∧ f = calibrationInfoIndex ∧ r = voltbaseIndex then
                    (getU16le buf st.2.1).getD 0
                  else st.1 c f r,
                st.2.1 + 2,
                st.2.2 && (getU16le buf st.2.1).isSome))
            st)
        st)
    ((fun _ _ _ => 0), 6, true)

/-- `new Uint8Array(receivedData.buffer, off, len)`: throws RangeError
when the requested view does not fit inside the buffer, otherwise it is
the `len` bytes starting at `off`. -/
def getBytes (buf : List Nat) (off len : Nat) : Option (List Nat) :=
  if off + len ≤ buf.length then some ((buf.drop off).take len) else none

/-- `readFlash` response parsing: header at offset 0 (big-endian u16)
must equal 0xAA55, version at offset 2 (little-endian u32) must equal
2; then the calibration walk (which throws on a dump too short for its
60 reads — modelled by the `calibLoop` flag), then the firmware-version
ASCII bytes (offset 207, length 4) and the serial ASCII bytes (offset
212, length 15), both of which also throw when out of range.  The
`.truncated` error stands for the RangeError the source lets escape.
The crc32 is computed only for logging in the source and is not
modelled. -/
def readFlashParse (buf : List Nat) : Except FlashError FlashData :=
  match getU16be buf 0 with
  | none => .error .truncated
  | some header =>
    if header = FLASH_HEADER then
      match getU32le buf 2 with
      | none => .error .truncated
      | some version =>
        if version = 2 then
          if (calibLoop buf).2.2 then
            match getBytes buf 207 4, getBytes buf 212 15 with
            | some fw, some sn =>
              .ok { calibration := (calibLoop buf).1,
                    firmwareVersion := fw,
                    serial := sn }
            | _, _ => .error .truncated
          else .error .truncated
        else .error .unsupportedFlashVersion
    else .error .invalidFlashHeader

/- ## Sample decoding (`gotData`, HelloWorld.vue lines 113–132) -/

/-- Signed interpretation of a 16-bit value (`DataView.getInt16`). -/
def toInt16 (n : Nat) : Int :=
  if n < 32768 then (n : Int) else (n : Int) - 65536

/-- `DataView.getInt16(i, true)`: `none` models the RangeError thrown
when the two bytes are not fully inside the buffer. -/
def getInt16le (buf : List Nat) (i : Nat) : Option Int :=
  match buf.get? i, buf.get? (i + 1) with
  | some lo, some hi => some (toInt16 (lo + hi * 256))
  | _, _ => none

/-- `const multiplier = 1 / 3096.0`, modelled as an exact rational. -/
def SAMPLE_MULTIPLIER : ℚ :=
  1 / 3096

/-- A store into the `Float32Array(1275)`: JavaScript typed-array
writes out of range are silently ignored. -/
def writeSample (f : Nat → ℚ) (i : Nat) (v : ℚ) : Nat → ℚ :=
  fun j => if j = i ∧ i < 1275 then v else f j

/-- The decode loop of `gotData`: `byteIndex` starts at `11 + 100`,
advances by 4 while `byteIndex < byteLength`; each read is
`getInt16(byteIndex, true) * multiplier`; a read that crosses the end
of the buffer throws, the surrounding `try`/`catch` swallows the
exception and whatever was filled so far is used.  Fuel bounds the
recursion; `buf.length` iterations are always enough because
`byteIndex` strictly grows. -/
def decodeLoopAux : Nat → List Nat → Nat → Nat → (Nat → ℚ) → (Nat → ℚ)
  | 0, _, _, _, f => f
  | fuel + 1, buf, byteIndex, timeIndex, f =>
    if byteIndex < buf.length then
      match getInt16le buf byteIndex with
      | none => f
      | some v =>
        decodeLoopAux fuel buf (byteIndex + 4) (timeIndex + 1)
          (writeSample f timeIndex ((v : ℚ) * SAMPLE_MULTIPLIER))
    else f

/-- The decoded sample array produced by `gotData` for a raw frame:
slot `k` holds the `k`-th decoded sample, slots never written remain at
the `Float32Array` initial value 0. -/
def gotDataDecode (buf : List Nat) : Nat → ℚ :=
  decodeLoopAux buf.length buf (11 + 100) 0 (fun _ => 0)

/-!
## Theorems
-/

/-- C1: evaluation of the edge-level computation at
`triggerLevel = 200`, `slope = RISING`.  The claim (and §4.4 of the
spec) requires the clamp `upper > 127 → upper = 127, lower = 117`, but
the source clamps with `if (upperBound > 128) { upperBound = 128; ... }`,
producing `(128, 118)`; the subsequent `Int8Array` store wraps 128 to
−128, so the device receives the minimum level instead of the maximum. -/
theorem configureEdgeTrigger_clamp_bug :
    edgeLevelBounds ⟨.CH1, .SINGLE, .EDGE, .RISING, 0, 200⟩ = (128, 118) ∧
    toInt8 128 = -128 ∧
    edgeLevelWrite ⟨.CH1, .SINGLE, .EDGE, .RISING, 0, 200⟩ =
      packCommand Address.CH1_TRIGGER_EDGE_LEVEL [128, 118] ∧
    (128 : Int) ≠ 127 := by
  decide

/-- C2 counterexample: on the freshly constructed session (calibration
table zero-filled, never loaded), `configureChannel` does not fail — it
produces its three writes, and write 1 is a zero-valued gain
(`packCommand 0x116 [0, 0]`) to the CH1 gain register, contradicting
the claim that a `PreconditionViolation` is raised and that a
zero-valued gain is never written. -/
theorem configureChannel_unloaded_counterexample :
    (configureChannelWrites initialSession ⟨.CH1, true, .V2, .DC⟩).length = 3 ∧
    (configureChannelWrites initialSession ⟨.CH1, true, .V2, .DC⟩).get? 1 =
      some (packCommand Address.CH1_VOLT_GAIN [0, 0]) := by
  decide

/-- C2 amended: `configureChannel` performs no calibration-loaded
precondition check; called before `readFlash` it silently writes the
zero gain taken from the unpopulated table, for every channel option. -/
theorem configureChannel_unloaded_writes_zero_gain (o : ChannelOptions) :
    (configureChannelWrites initialSession o).length = 3 ∧
    (configureChannelWrites initialSession o).get? 1 =
      some (packCommand (VOLT_GAIN_ADDRESS o.channel) [0, 0]) := by
  refine ⟨rfl, ?_⟩
  simp [configureChannelWrites, initialSession, u16le, CalibrationField.GAIN]

/-- C3 counterexample: no cycle step writes payload `{0x05, 0x05}` to
register 0x1000; the data-request step (index 4 of the cycle trace)
carries payload `{0x05, 0x04}`. -/
theorem sampleInfinitely_data_request_counterexample :
    Step.out (packCommand Address.GET_DATA [0x05, 0x05]) ∉ cycleSteps ∧
    cycleSteps.get? 4 = some (.out (packCommand Address.GET_DATA [0x05, 0x04])) := by
  decide

/-- C3 amended: in each cycle of the acquisition loop the data-request
command is written to register 0x1000 with payload bytes
`{0x05, 0x04}`, no response-status check follows that write, and the
next step is the 5211-byte bulk read. -/
theorem sampleInfinitely_data_request :
    cycleSteps.get? 4 = some (.out (packCommand Address.GET_DATA [0x05, 0x04])) ∧
    (cycleSteps.drop 5).filter (fun s => s == Step.expectAck) = [] ∧
    cycleSteps.get? 5 = some (.readIn 5211) := by
  decide

set_option maxRecDepth 8192 in
/-- C4 counterexample: for a payload of length 256 the encoder does not
fail — it still produces a frame, of length 261, whose length byte has
been silently truncated to 0. -/
theorem packCommand_no_length_error :
    (packCommand 0 (List.replicate 256 0)).length = 261 ∧
    (packCommand 0 (List.replicate 256 0)).get? 4 = some 0 := by
  decide

/-- C4 amended: for every payload (of any length) `packCommand`
produces a frame of length exactly `5 + payload.length`, laid out as
the 32-bit little-endian address, then the length byte — which equals
`payload.length` only modulo 256, with no `EncodingError` path for
longer payloads — then the payload. -/
theorem packCommand_length (address : Nat) (data : List Nat) :
    (packCommand address data).length = 5 + data.length ∧
    (packCommand address data).take 4 = u32le address ∧
    (packCommand address data).get? 4 = some (data.length % 256) ∧
    (packCommand address data).drop 5 = data := by
  refine ⟨?_, rfl, rfl, rfl⟩
  simp [packCommand, u32le]
  omega

/-- C10: `configureTrigger` computes a local bit field and discards it:
it performs no transport write, no response read, no bulk read, and
returns the session state with every field unchanged. -/
theorem configureTrigger_no_effect (s : SessionState) (o : TriggerOptions) :
    configureTrigger s o = (s, []) ∧
    (configureTrigger s o).1.calibration = s.calibration ∧
    (configureTrigger s o).1.firmwareVersion = s.firmwareVersion ∧
    (configureTrigger s o).1.serial = s.serial ∧
    (configureTrigger s o).2.filter isDataRead = [] ∧
    (configureTrigger s o).2.filter (fun st => st == Step.expectAck) = [] ∧
    (configureTrigger s o).2 = [] := by
  refine ⟨rfl, rfl, rfl, rfl, rfl, rfl, rfl⟩

/-- Helper: the trigger-type word does not depend on the numeric
holdoff and level fields. -/
theorem triggerTypeBitField_drop (s : TriggerSource) (m : TriggerMode) (t : TriggerType)
    (sl : TriggerSlope) (hh hl : Int) :
    triggerTypeBitField ⟨s, m, t, sl, hh, hl⟩ = triggerTypeBitField ⟨s, m, t, sl, 0, 0⟩ :=
  rfl

/-- Helper: neither does the serialized trigger-type write. -/
theorem triggerTypeWrite_drop (s : TriggerSource) (m : TriggerMode) (t : TriggerType)
    (sl : TriggerSlope) (hh hl : Int) :
    triggerTypeWrite ⟨s, m, t, sl, hh, hl⟩ = triggerTypeWrite ⟨s, m, t, sl, 0, 0⟩ :=
  rfl

/-- C6: the 16-bit trigger-type word.  In SINGLE mode bit 8 is
`type & 1`, bit 14 is `(type >> 1) & 1`, bit 0 is set exactly for the
external source and otherwise bit 13 is `source & 1`; in ALTERNATE mode
bit 15 is set, bit 13 is `type & 1`, bit 8 is `(type >> 1) & 1` and
bit 14 is `source & 1`; in both modes bit 12 is `slope & 1`; the word
for `{SINGLE, EDGE, CH1, RISING}` is 0x0000; and the word is written
16-bit little-endian to the shared trigger register 0x24. -/
theorem configureEdgeTrigger_word :
    (∀ o : EdgeTriggerOptions, o.mode = .SINGLE →
      ((triggerTypeBitField o).testBit 8 = ((o.type.val &&& 1) == 1)) ∧
      ((triggerTypeBitField o).testBit 14 = (((o.type.val >>> 1) &&& 1) == 1)) ∧
      (o.source = .EXTERNAL → (triggerTypeBitField o).testBit 0 = true) ∧
      (o.source ≠ .EXTERNAL →
        (triggerTypeBitField o).testBit 13 = ((o.source.val &&& 1) == 1))) ∧
    (∀ o : EdgeTriggerOptions, o.mode = .ALTERNATE →
      ((triggerTypeBitField o).testBit 15 = true) ∧
      ((triggerTypeBitField o).testBit 13 = ((o.type.val &&& 1) == 1)) ∧
      ((triggerTypeBitField o).testBit 8 = (((o.type.val >>> 1) &&& 1) == 1)) ∧
      ((triggerTypeBitField o).testBit 14 = ((o.source.val &&& 1) == 1))) ∧
    (∀ o : EdgeTriggerOptions,
      (triggerTypeBitField o).testBit 12 = ((o.slope.val &&& 1) == 1)) ∧
    triggerTypeBitField ⟨.CH1, .SINGLE, .EDGE, .RISING, 0, 0⟩ = 0x0000 ∧
    (∀ o : EdgeTriggerOptions, triggerTypeWrite o =
      u32le Address.TRIGGER ++
        [2, triggerTypeBitField o % 256, triggerTypeBitField o / 256 % 256]) := by
  refine ⟨?_, ?_, ?_, by decide, ?_⟩ <;>
    intro o <;> obtain ⟨s, m, t, sl, hh, hl⟩ := o <;>
    cases s <;> cases m <;> cases t <;> cases sl <;>
    simp only [triggerTypeBitField_drop, triggerTypeWrite_drop] <;> decide

/-- C6 witness: the theorem instantiated at
`{mode = SINGLE, source = EXTERNAL, type = EDGE, slope = FALLING}`:
bit 0 and bit 12 of the word are set. -/
theorem configureEdgeTrigger_word_witness :
    (triggerTypeBitField ⟨.EXTERNAL, .SINGLE, .EDGE, .FALLING, 0, 0⟩).testBit 0 = true ∧
    (triggerTypeBitField ⟨.EXTERNAL, .SINGLE, .EDGE, .FALLING, 0, 0⟩).testBit 12 = true := by
  constructor
  · exact (configureEdgeTrigger_word.1 ⟨.EXTERNAL, .SINGLE, .EDGE, .FALLING, 0, 0⟩
      rfl).2.2.1 rfl
  · exact (configureEdgeTrigger_word.2.2.1
      ⟨.EXTERNAL, .SINGLE, .EDGE, .FALLING, 0, 0⟩).trans (by decide)

/-- Helper: each loop iteration contributes exactly one sample-frame
read to the trace. -/
theorem countDataReads_loopSteps (n : Nat) : countDataReads (loopSteps n) = n := by
  induction n with
  | zero => rfl
  | succ k ih =>
    show ((loopSteps k ++ cycleSteps).filter isDataRead).length = k + 1
    rw [List.filter_append, List.length_append]
    have h2 : (cycleSteps.filter isDataRead).length = 1 := rfl
    rw [h2]
    exact congrArg (fun x => x + 1) ih

/-- C9 counterexample: `sampleInfinitely` takes no cycle bound and no
stop predicate (its trace is a constant of the embedding), and that
trace contains exactly 5000 acquisition cycles — the hard-coded literal
of the for-loop `for (let i = 0; i < 5000; i++)` — contradicting the
claim that the number of cycles is determined by a caller-supplied
bound or `shouldStop` predicate. -/
theorem sampleInfinitely_hard_coded_5000 :
    countDataReads sampleInfinitelySteps = 5000 := by
  show ((armSteps ++ loopSteps 5000).filter isDataRead).length = 5000
  rw [List.filter_append, List.length_append]
  have h0 : (armSteps.filter isDataRead).length = 0 := rfl
  rw [h0, Nat.zero_add]
  exact countDataReads_loopSteps 5000

/-- C9 amended: the acquisition loop runs a hard-coded 5000 cycles
(each cycle contributing exactly one sample-frame read), with no
caller-supplied bound and no cancellation predicate; were the literal a
parameter `n`, the trace would contain exactly `n` cycles, so the loop
always terminates. -/
theorem sampleInfinitely_cycle_count :
    (∀ n, countDataReads (armSteps ++ loopSteps n) = n) ∧
    countDataReads sampleInfinitelySteps = 5000 := by
  have key : ∀ n, countDataReads (armSteps ++ loopSteps n) = n := by
    intro n
    show ((armSteps ++ loopSteps n).filter isDataRead).length = n
    rw [List.filter_append, List.length_append]
    have h0 : (armSteps.filter isDataRead).length = 0 := rfl
    rw [h0, Nat.zero_add]
    exact countDataReads_loopSteps n
  exact ⟨key, key 5000⟩

/-- Helper: the frame partition of an empty remainder is empty. -/
theorem chunkFramesAux_nil (fuel mcuDataSize idx : Nat) :
    chunkFramesAux fuel mcuDataSize idx [] = [] := by
  cases fuel <;> rfl

/-- Helper: one step of the frame partition. -/
theorem chunkFramesAux_cons (fuel mcuDataSize idx : Nat) (rest : List Nat)
    (hf : fuel ≠ 0) (h : rest ≠ []) :
    chunkFramesAux fuel mcuDataSize idx rest =
      (idx, rest.take mcuDataSize) ::
        chunkFramesAux (fuel - 1) mcuDataSize (idx + 1) (rest.drop mcuDataSize) := by
  cases fuel with
  | zero => exact absurd rfl hf
  | succ f => simp [chunkFramesAux, h]

/-- C5: for an image of length `2*D + 7` (where `D = mcuBufferSize - 4`
is the usable per-frame data size and `7 ≤ D`), the upload sends
exactly 3 frames, with indices 0, 1, 2 in order, carrying `D`, `D` and
7 data bytes; the wire bytes of each frame are the 4-byte little-endian
frame index followed by its image slice; and if the response to frame 1
is not affirmative, the upload errors out at frame index 1 and frame 2
is never sent. -/
theorem uploadFpgaBitstream_frames (mcuDataSize : Nat) (fpgaFirmware : List Nat)
    (hD : 7 ≤ mcuDataSize) (hlen : fpgaFirmware.length = 2 * mcuDataSize + 7) :
    uploadFrames mcuDataSize fpgaFirmware =
      [(0, fpgaFirmware.take mcuDataSize),
       (1, (fpgaFirmware.drop mcuDataSize).take mcuDataSize),
       (2, fpgaFirmware.drop (2 * mcuDataSize))] ∧
    (uploadFrames mcuDataSize fpgaFirmware).map (fun f => f.2.length) =
      [mcuDataSize, mcuDataSize, 7] ∧
    (uploadFrames mcuDataSize fpgaFirmware).map frameBytes =
      [u32le 0 ++ fpgaFirmware.take mcuDataSize,
       u32le 1 ++ (fpgaFirmware.drop mcuDataSize).take mcuDataSize,
       u32le 2 ++ fpgaFirmware.drop (2 * mcuDataSize)] ∧
    (∀ responses : Nat → Nat,
      responses 0 = AFFIRMATIVE_RESPONSE → responses 1 ≠ AFFIRMATIVE_RESPONSE →
      uploadAckRun (uploadFrames mcuDataSize fpgaFirmware) responses =
        ([(0, fpgaFirmware.take mcuDataSize),
          (1, (fpgaFirmware.drop mcuDataSize).take mcuDataSize)], some 1)) := by
  have hlen1 : (fpgaFirmware.drop mcuDataSize).length = mcuDataSize + 7 := by
    rw [List.length_drop, hlen]; omega
  have hlen2 : ((fpgaFirmware.drop mcuDataSize).drop mcuDataSize).length = 7 := by
    rw [List.length_drop, hlen1]; omega
  have e1 := chunkFramesAux_cons fpgaFirmware.length mcuDataSize 0 fpgaFirmware
    (by omega) (List.ne_nil_of_length_pos (by omega))
  have e2 := chunkFramesAux_cons (fpgaFirmware.length - 1) mcuDataSize (0 + 1)
    (fpgaFirmware.drop mcuDataSize)
    (by omega) (List.ne_nil_of_length_pos (by omega))
  have e3 := chunkFramesAux_cons (fpgaFirmware.length - 1 - 1) mcuDataSize (0 + 1 + 1)
    ((fpgaFirmware.drop mcuDataSize).drop mcuDataSize)
    (by omega) (List.ne_nil_of_length_pos (by omega))
  have key : uploadFrames mcuDataSize fpgaFirmware =
      [(0, fpgaFirmware.take mcuDataSize),
       (1, (fpgaFirmware.drop mcuDataSize).take mcuDataSize),
       (2, fpgaFirmware.drop (2 * mcuDataSize))] := by
    show chunkFramesAux fpgaFirmware.length mcuDataSize 0 fpgaFirmware = _
    rw [e1, e2, e3]
    rw [List.take_of_length_le
      (show ((fpgaFirmware.drop mcuDataSize).drop mcuDataSize).length ≤ mcuDataSize by omega)]
    rw [List.drop_eq_nil_of_le
      (show ((fpgaFirmware.drop mcuDataSize).drop mcuDataSize).length ≤ mcuDataSize by omega)]
    rw [chunkFramesAux_nil]
    rw [List.drop_drop]
    have hdd : mcuDataSize + mcuDataSize = 2 * mcuDataSize := by omega
    rw [hdd]
  refine ⟨key, ?_, ?_, ?_⟩
  · rw [key]
    simp only [List.map_cons, List.map_nil, List.length_take, List.length_drop, hlen]
    have m1 : mcuDataSize ⊓ (2 * mcuDataSize + 7) = mcuDataSize := by omega
    have m2 : mcuDataSize ⊓ (2 * mcuDataSize + 7 - mcuDataSize) = mcuDataSize := by omega
    rw [m1, m2]
    norm_num
  · rw [key]; rfl
  · intro responses hr0 hr1
    simp only [AFFIRMATIVE_RESPONSE] at hr0 hr1
    rw [key]
    simp [uploadAckRun, hr0, hr1, AFFIRMATIVE_RESPONSE]

/-- C5 witness: the theorem instantiated at `D = 10` and a 27-byte
image, with a response function that rejects frame 1. -/
theorem uploadFpgaBitstream_frames_witness :
    7 ≤ 10 ∧ (List.replicate 27 3).length = 2 * 10 + 7 ∧
    uploadAckRun (uploadFrames 10 (List.replicate 27 3))
        (fun k => if k = 1 then 0 else 0x53) =
      ([(0, (List.replicate 27 3).take 10),
        (1, ((List.replicate 27 3).drop 10).take 10)], some 1) := by
  refine ⟨by decide, by decide, ?_⟩
  exact (uploadFpgaBitstream_frames 10 (List.replicate 27 3) (by decide)
      (by decide)).2.2.2
    (fun k => if k = 1 then 0 else 0x53) (by decide) (by decide)

/-- Helper: unfolding equation for `getU16le`. -/
theorem getU16le_eq (buf : List Nat) (i : Nat) :
    getU16le buf i =
      match buf.get? i, buf.get? (i + 1) with
      | some a, some b => some (a + b * 256)
      | _, _ => none :=
  rfl

/-- Helper: a 16-bit little-endian read entirely inside the buffer does
not throw. -/
theorem getU16le_isSome (buf : List Nat) (i : Nat) (h : i + 1 < buf.length) :
    (getU16le buf i).isSome = true := by
  cases hx : buf.get? i with
  | none => exact absurd (List.get?_eq_none.1 hx) (by omega)
  | some a =>
    cases hy : buf.get? (i + 1) with
    | none => exact absurd (List.get?_eq_none.1 hy) (by omega)
    | some b => rw [getU16le_eq, hx, hy]; rfl

/-- Helper: on a dump long enough for all 60 calibration reads (the
last one covers bytes 124 and 125), the loop completes — no read
throws. -/
theorem calibLoop_ok (buf : List Nat) (hlen : 126 ≤ buf.length) :
    (calibLoop buf).2.2 = true := by
  have hr3 : List.range CALIBRATION_INFO_COUNT = [0, 1, 2] := rfl
  have hr2 : List.range CHANNEL_COUNT = [0, 1] := rfl
  have hr10 : List.range VOLTBASE_COUNT = [0, 1, 2, 3, 4, 5, 6, 7, 8, 9] := rfl
  simp only [calibLoop, hr3, hr2, hr10, List.foldl_cons, List.foldl_nil,
    Bool.and_eq_true, Bool.true_and]
  repeat' apply And.intro
  all_goals exact getU16le_isSome buf _ (by omega)

/-- C7: `readFlash` parsing.  A 16-bit magic field differing from
0xAA55 fails with the invalid-header error; with the magic right, a
32-bit little-endian version differing from 2 fails with the
unsupported-version error; on a dump long enough for all its reads
(227 bytes cover the calibration walk and both strings; a shorter dump
makes the source throw RangeError) the parse succeeds: the calibration
table holds the 60 little-endian 16-bit values walked in nesting order
field (outermost), channel, voltage-range (innermost) from fixed
offset 6 — the value at table index `(channel c, field f, range r)`
sits at byte offset `6 + 2*(f*20 + c*10 + r)` — and the
firmware-version and serial strings are the 4 bytes at offset 207 and
the 15 bytes at offset 212. -/
theorem readFlash_parse (buf : List Nat) :
    (∀ m, getU16be buf 0 = some m → m ≠ FLASH_HEADER →
      readFlashParse buf = .error .invalidFlashHeader) ∧
    (getU16be buf 0 = some FLASH_HEADER →
      ∀ v, getU32le buf 2 = some v → v ≠ 2 →
        readFlashParse buf = .error .unsupportedFlashVersion) ∧
    (getU16be buf 0 = some FLASH_HEADER → getU32le buf 2 = some 2 →
      227 ≤ buf.length →
      ∃ d, readFlashParse buf = .ok d ∧
        (∀ c f r, c < 2 → f < 3 → r < 10 →
          d.calibration c f r = (getU16le buf (6 + 2 * (f * 20 + c * 10 + r))).getD 0) ∧
        d.firmwareVersion = (buf.drop 207).take 4 ∧
        d.serial = (buf.drop 212).take 15) := by
  refine ⟨?_, ?_, ?_⟩
  · intro m hm hne
    unfold readFlashParse
    rw [hm]
    simp [hne]
  · intro h1 v hv hne
    unfold readFlashParse
    rw [h1, hv]
    simp [hne]
  · intro h1 h2 hlen
    have hok : (calibLoop buf).2.2 = true := calibLoop_ok buf (by omega)
    have h207 : getBytes buf 207 4 = some ((buf.drop 207).take 4) := by
      rw [getBytes, if_pos (by omega)]
    have h212 : getBytes buf 212 15 = some ((buf.drop 212).take 15) := by
      rw [getBytes, if_pos (by omega)]
    refine ⟨⟨(calibLoop buf).1, (buf.drop 207).take 4, (buf.drop 212).take 15⟩,
      ?_, ?_, rfl, rfl⟩
    · unfold readFlashParse
      rw [h1, h2]
      simp [hok, h207, h212]
    · intro c f r hc hf hr
      interval_cases c <;> interval_cases f <;> interval_cases r <;> rfl

/-- A 227-byte flash image used to witness the parser: valid header
`AA 55`, version 2, all remaining bytes 9. -/
def flashSample : List Nat :=
  [0xAA, 0x55, 2, 0, 0, 0] ++ List.replicate 221 9

set_option maxRecDepth 8192 in
/-- C7 witness: the parser applied to a wrong-magic dump, a
wrong-version dump, a truncated dump (valid header and version but too
short for the calibration reads — the RangeError path), and the valid
227-byte `flashSample` (whose calibration entry for channel 1, field 2,
range 9 decodes to `9 + 9*256 = 2313`). -/
theorem readFlash_parse_witness :
    readFlashParse [0, 0, 2, 0, 0, 0] = .error .invalidFlashHeader ∧
    readFlashParse [0xAA, 0x55, 3, 0, 0, 0] = .error .unsupportedFlashVersion ∧
    readFlashParse [0xAA, 0x55, 2, 0, 0, 0] = .error .truncated ∧
    ∃ d, readFlashParse flashSample = .ok d ∧ d.calibration 1 2 9 = 2313 := by
  refine ⟨(readFlash_parse [0, 0, 2, 0, 0, 0]).1 0 (by decide) (by decide),
    (readFlash_parse [0xAA, 0x55, 3, 0, 0, 0]).2.1 (by decide) 3 (by decide) (by decide),
    rfl,
    ?_⟩
  obtain ⟨d, hd, hcal, h4, h15⟩ :=
    (readFlash_parse flashSample).2.2 (by decide) (by decide) (by decide)
  refine ⟨d, hd, ?_⟩
  rw [hcal 1 2 9 (by decide) (by decide) (by decide)]
  decide

/-- Helper: unfolding equation for `getInt16le`. -/
theorem getInt16le_eq (buf : List Nat) (i : Nat) :
    getInt16le buf i =
      match buf.get? i, buf.get? (i + 1) with
      | some lo, some hi => some (toInt16 (lo + hi * 256))
      | _, _ => none :=
  rfl

/-- Helper: the decode loop never changes a slot below its current
write index. -/
theorem decodeLoopAux_lt (fuel : Nat) :
    ∀ (buf : List Nat) (byteIndex timeIndex : Nat) (f : Nat → ℚ) (k : Nat),
      k < timeIndex → decodeLoopAux fuel buf byteIndex timeIndex f k = f k := by
  induction fuel with
  | zero => intro buf bi ti f k hk; rfl
  | succ g ih =>
    intro buf bi ti f k hk
    by_cases hbi : bi < buf.length
    · simp only [decodeLoopAux, hbi, if_true]
      cases hget : getInt16le buf bi with
      | none => rfl
      | some v =>
        show decodeLoopAux g buf (bi + 4) (ti + 1)
          (writeSample f ti ((v : ℚ) * SAMPLE_MULTIPLIER)) k = f k
        rw [ih _ _ _ _ _ (Nat.lt_succ_of_lt hk)]
        simp [writeSample, Nat.ne_of_lt hk]
    · simp only [decodeLoopAux, hbi, if_false]

/-- Helper: slots at index 1275 and beyond are never written (the
`Float32Array` has 1275 slots and out-of-range stores are ignored). -/
theorem decodeLoopAux_hi (fuel : Nat) :
    ∀ (buf : List Nat) (byteIndex timeIndex : Nat) (f : Nat → ℚ) (k : Nat),
      1275 ≤ k → f k = 0 → decodeLoopAux fuel buf byteIndex timeIndex f k = 0 := by
  induction fuel with
  | zero => intro buf bi ti f k hk h0; exact h0
  | succ g ih =>
    intro buf bi ti f k hk h0
    by_cases hbi : bi < buf.length
    · simp only [decodeLoopAux, hbi, if_true]
      cases hget : getInt16le buf bi with
      | none => exact h0
      | some v =>
        show decodeLoopAux g buf (bi + 4) (ti + 1)
          (writeSample f ti ((v : ℚ) * SAMPLE_MULTIPLIER)) k = 0
        refine ih _ _ _ _ _ hk ?_
        have hcond : ¬(k = ti ∧ ti < 1275) := by rintro ⟨rfl, h2⟩; omega
        simp only [writeSample, if_neg hcond]
        exact h0
    · simp only [decodeLoopAux, hbi, if_false]; exact h0

/-- Helper: when the buffer is too short for the 16-bit read of slot `k`,
the loop exits (either on the length test or on the caught RangeError)
before ever writing slot `k`, which therefore keeps its initial value. -/
theorem decodeLoopAux_out (fuel : Nat) :
    ∀ (buf : List Nat) (byteIndex timeIndex : Nat) (f : Nat → ℚ) (k : Nat),
      timeIndex ≤ k → buf.length ≤ byteIndex + 4 * (k - timeIndex) + 1 →
      decodeLoopAux fuel buf byteIndex timeIndex f k = f k := by
  induction fuel with
  | zero => intro buf bi ti f k htk hlen; rfl
  | succ g ih =>
    intro buf bi ti f k htk hlen
    by_cases hbi : bi < buf.length
    · simp only [decodeLoopAux, hbi, if_true]
      cases hget : getInt16le buf bi with
      | none => rfl
      | some v =>
        rcases Nat.eq_or_lt_of_le htk with heq | hlt
        · exfalso
          have hnone : buf.get? (bi + 1) = none := by
            refine List.get?_eq_none.2 ?_
            omega
          cases hx : buf.get? bi with
          | none => rw [getInt16le_eq, hx] at hget; simp at hget
          | some a => rw [getInt16le_eq, hx, hnone] at hget; simp at hget
        · show decodeLoopAux g buf (bi + 4) (ti + 1)
            (writeSample f ti ((v : ℚ) * SAMPLE_MULTIPLIER)) k = f k
          rw [ih _ _ _ _ _ hlt (by omega)]
          simp [writeSample, Ne.symm (Nat.ne_of_lt hlt)]
    · simp only [decodeLoopAux, hbi, if_false]

/-- Helper: the value actually decoded into slot `k`: the signed 16-bit
little-endian value at byte offset `byteIndex + 4*(k - timeIndex)`
scaled by the multiplier. -/
theorem decodeLoopAux_val (fuel : Nat) :
    ∀ (buf : List Nat) (byteIndex timeIndex : Nat) (f : Nat → ℚ) (k : Nat) (v : Int),
      timeIndex ≤ k → k - timeIndex < fuel → k < 1275 →
      getInt16le buf (byteIndex + 4 * (k - timeIndex)) = some v →
      decodeLoopAux fuel buf byteIndex timeIndex f k = (v : ℚ) * SAMPLE_MULTIPLIER := by
  induction fuel with
  | zero => intro buf bi ti f k v htk hfuel; exact absurd hfuel (Nat.not_lt_zero _)
  | succ g ih =>
    intro buf bi ti f k v htk hfuel hk hread
    have hidx : bi + 4 * (k - ti) + 1 < buf.length := by
      by_contra hc
      push_neg at hc
      have hnone : buf.get? (bi + 4 * (k - ti) + 1) = none := by
        refine List.get?_eq_none.2 ?_
        omega
      cases hx : buf.get? (bi + 4 * (k - ti)) with
      | none => rw [getInt16le_eq, hx] at hread; simp at hread
      | some a => rw [getInt16le_eq, hx, hnone] at hread; simp at hread
    have hbi : bi < buf.length := by omega
    simp only [decodeLoopAux, hbi, if_true]
    rcases Nat.eq_or_lt_of_le htk with heq | hlt
    · have hbase : bi + 4 * (k - ti) = bi := by omega
      rw [hbase] at hread
      rw [hread]
      show decodeLoopAux g buf (bi + 4) (ti + 1)
        (writeSample f ti ((v : ℚ) * SAMPLE_MULTIPLIER)) k = (v : ℚ) * SAMPLE_MULTIPLIER
      rw [decodeLoopAux_lt g buf (bi + 4) (ti + 1)
        (writeSample f ti ((v : ℚ) * SAMPLE_MULTIPLIER)) k (by omega)]
      have hcond : k = ti ∧ ti < 1275 := by omega
      simp only [writeSample, if_pos hcond]
    · obtain ⟨lo, hlo⟩ : ∃ lo, buf.get? bi = some lo := by
        cases hx : buf.get? bi with
        | none => exact absurd (List.get?_eq_none.1 hx) (by omega)
        | some a => exact ⟨a, rfl⟩
      obtain ⟨hi2, hhi⟩ : ∃ b, buf.get? (bi + 1) = some b := by
        cases hx : buf.get? (bi + 1) with
        | none =>
          refine absurd (List.get?_eq_none.1 hx) ?_
          omega
        | some a => exact ⟨a, rfl⟩
      have hg : getInt16le buf bi = some (toInt16 (lo + hi2 * 256)) := by
        rw [getInt16le_eq, hlo, hhi]
      rw [hg]
      show decodeLoopAux g buf (bi + 4) (ti + 1)
        (writeSample f ti ((toInt16 (lo + hi2 * 256) : ℚ) * SAMPLE_MULTIPLIER)) k =
          (v : ℚ) * SAMPLE_MULTIPLIER
      refine ih _ _ _ _ _ _ hlt (by omega) hk ?_
      have harith : bi + 4 + 4 * (k - (ti + 1)) = bi + 4 * (k - ti) := by omega
      rw [harith]
      exact hread

/-- C8: the `gotData` decoder.  For every raw buffer it is total and
produces exactly the slots 0–1274 (slot 1275 and beyond stay 0); slot
`k`, when the buffer covers it, holds the signed 16-bit little-endian
value at byte offset `111 + 4*k` scaled by `1/3096`; and when the
buffer ends before the read for slot `k` the decoder does not throw — the
slot just keeps its initial value 0. -/
theorem gotData_decode (buf : List Nat) :
    (∀ k, 1275 ≤ k → gotDataDecode buf k = 0) ∧
    (∀ k v, k < 1275 → getInt16le buf (111 + 4 * k) = some v →
      gotDataDecode buf k = (v : ℚ) * SAMPLE_MULTIPLIER) ∧
    (∀ k, k < 1275 → buf.length ≤ 111 + 4 * k + 1 → gotDataDecode buf k = 0) := by
  refine ⟨?_, ?_, ?_⟩
  · intro k hk
    exact decodeLoopAux_hi buf.length buf (11 + 100) 0 _ k hk rfl
  · intro k v hk hread
    have hidx : 111 + 4 * k + 1 < buf.length := by
      by_contra hc
      push_neg at hc
      have hnone : buf.get? (111 + 4 * k + 1) = none := by
        refine List.get?_eq_none.2 ?_
        omega
      cases hx : buf.get? (111 + 4 * k) with
      | none => rw [getInt16le_eq, hx] at hread; simp at hread
      | some a => rw [getInt16le_eq, hx, hnone] at hread; simp at hread
    refine decodeLoopAux_val buf.length buf (11 + 100) 0 _ k v (Nat.zero_le k)
      (by omega) hk ?_
    have harith : 11 + 100 + 4 * (k - 0) = 111 + 4 * k := by omega
    rw [harith]
    exact hread
  · intro k hk hlen
    exact decodeLoopAux_out buf.length buf (11 + 100) 0 _ k (Nat.zero_le k) (by omega)

/-- A 5211-byte sample frame: zeros except the little-endian i16 value
3096 at byte offset 111. -/
def sampleFrame : List Nat :=
  List.replicate 111 0 ++ 24 :: 12 :: List.replicate 5098 0

/-- C8 witness: on `sampleFrame` the first decoded sample is exactly 1;
slot 1275 is never produced; and a 50-byte buffer (far shorter than
`111 + 4*1275`) decodes without error, slot 0 keeping its initial 0. -/
theorem gotData_decode_witness :
    gotDataDecode sampleFrame 0 = 1 ∧
    gotDataDecode sampleFrame 1275 = 0 ∧
    gotDataDecode (List.replicate 50 7) 0 = 0 := by
  refine ⟨?_, ?_, ?_⟩
  · have h := (gotData_decode sampleFrame).2.1 0 3096 (by norm_num) (by decide)
    rw [h]
    norm_num [SAMPLE_MULTIPLIER]
  · exact (gotData_decode sampleFrame).1 1275 (le_refl _)
  · refine (gotData_decode (List.replicate 50 7)).2.2 0 (by norm_num) ?_
    simp

end DopeScope
